import Mathlib

/-
Verification of the serialization layer of the quicksell marketplace backend
(src/quicksell/quicksell_app/serializers.py), as a shallow embedding in Lean 4.

Conventions of the embedding:
- Python bytes are lists of naturals below 256; strings of wire tokens are
  lists of characters.
- The ORM stores (Django querysets) are lists of records together with a
  counter supplying fresh primary keys; `get_or_create` is a linear find
  followed by an append, matching an atomic find-or-create, and `save`
  replaces the row with the same primary key.
- Fallible serializer entry points return `Except ApiError` mirroring the
  DRF exceptions NotFound and ValidationError raised by the source.
- Geographic coordinates (django.contrib.gis Point values) are kept
  abstract: the serializer code only ever compares them for equality, so
  every definition is parameterized by a type `Coord` with decidable
  equality.  A nullable coordinate column is `Option Coord`.
-/

/-- The two DRF exception kinds raised by this layer
(rest_framework.exceptions.NotFound / ValidationError). -/
inductive ApiError where
  | NotFound
  | ValidationError (msg : String)
deriving DecidableEq

/-! ## Base64 identifier codec (Base64UUIDField)

The source encodes `value.bytes` (the 16 raw bytes of a UUID) with
`django.utils.http.urlsafe_base64_encode`, which is urlsafe
base64 with trailing padding and newline stripped, and decodes with
`urlsafe_base64_decode`, which re-appends `len(s) % 4` padding characters
and calls `base64.urlsafe_b64decode`, turning decoding failures into
`ValueError`. -/

/-- The 64-character URL-safe base64 alphabet used by
`base64.urlsafe_b64encode` / `urlsafe_b64decode`. -/
def B64_ALPHABET : List Char :=
  ['A', 'B', 'C', 'D', 'E', 'F', 'G', 'H', 'I', 'J', 'K', 'L', 'M',
   'N', 'O', 'P', 'Q', 'R', 'S', 'T', 'U', 'V', 'W', 'X', 'Y', 'Z',
   'a', 'b', 'c', 'd', 'e', 'f', 'g', 'h', 'i', 'j', 'k', 'l', 'm',
   'n', 'o', 'p', 'q', 'r', 's', 't', 'u', 'v', 'w', 'x', 'y', 'z',
   '0', '1', '2', '3', '4', '5', '6', '7', '8', '9', '-', '_']

/-- Character of a 6-bit group. -/
def b64Char (n : Nat) : Char := B64_ALPHABET.getD n 'A'

/-- Position of a character in a list, `none` when absent. -/
def charIndexFrom : List Char → Char → Option Nat
  | [], _ => none
  | a :: rest, c =>
    if a = c then some 0 else (charIndexFrom rest c).map (fun n => n + 1)

/-- 6-bit value of a base64url character, `none` for characters outside the
alphabet (including the padding character). -/
def b64Index (c : Char) : Option Nat := charIndexFrom B64_ALPHABET c

/-- Base64url encoding of a byte list, already stripped of `=` padding, as
produced by urlsafe base64 after stripping the padding: each 3-byte group
yields 4 characters, a trailing 2-byte group yields 3, a trailing single
byte yields 2. -/
def b64EncodeGroups : List Nat → List Char
  | b1 :: b2 :: b3 :: rest =>
    b64Char (b1 / 4) :: b64Char (b1 % 4 * 16 + b2 / 16) ::
      b64Char (b2 % 16 * 4 + b3 / 64) :: b64Char (b3 % 64) ::
      b64EncodeGroups rest
  | [b1, b2] =>
    [b64Char (b1 / 4), b64Char (b1 % 4 * 16 + b2 / 16), b64Char (b2 % 16 * 4)]
  | [b1] =>
    [b64Char (b1 / 4), b64Char (b1 % 4 * 16)]
  | [] => []

/-- Base64url decoding of a padded character list, as performed by
`base64.urlsafe_b64decode` on well-formed input: quanta of four characters,
with `=` padding allowed only in the final quantum; anything else fails
(binascii raises, surfaced as `ValueError`). -/
def b64DecodeGroups : List Char → Option (List Nat)
  | [] => some []
  | c1 :: c2 :: c3 :: c4 :: rest =>
    if c3 = '=' ∧ c4 = '=' ∧ rest = [] then
      match b64Index c1, b64Index c2 with
      | some i1, some i2 => some [i1 * 4 + i2 / 16]
      | _, _ => none
    else if c4 = '=' ∧ rest = [] then
      match b64Index c1, b64Index c2, b64Index c3 with
      | some i1, some i2, some i3 =>
        some [i1 * 4 + i2 / 16, i2 % 16 * 16 + i3 / 4]
      | _, _, _ => none
    else
      match b64Index c1, b64Index c2, b64Index c3, b64Index c4 with
      | some i1, some i2, some i3, some i4 =>
        (b64DecodeGroups rest).map
          (fun tail =>
            (i1 * 4 + i2 / 16) :: (i2 % 16 * 16 + i3 / 4) :: (i3 % 4 * 64 + i4) :: tail)
      | _, _, _, _ => none
  | _ => none

/-- `django.utils.http.urlsafe_base64_encode`: base64url without padding. -/
def urlsafe_base64_encode (s : List Nat) : List Char := b64EncodeGroups s

/-- `django.utils.http.urlsafe_base64_decode`: re-append `len(s) % 4`
padding characters and decode; any decoding failure is a `ValueError`
(modelled as `none`). -/
def urlsafe_base64_decode (s : List Char) : Option (List Nat) :=
  b64DecodeGroups (s ++ List.replicate (s.length % 4) '=')

/-- A Python `uuid.UUID` value: exactly 16 bytes. -/
def PyUUID : Type := { l : List Nat // l.length = 16 ∧ ∀ b ∈ l, b < 256 }

instance : DecidableEq PyUUID := Subtype.instDecidableEq

/-- The argument shapes `Base64UUIDField.to_internal_value` is specified
for: an already-decoded `UUID` value, or wire text. -/
inductive B64Input where
  | uuid (u : PyUUID)
  | text (s : List Char)

/-- `Base64UUIDField.to_representation`: `urlsafe_base64_encode(value.bytes)`. -/
def Base64UUIDField.to_representation (value : PyUUID) : List Char :=
  urlsafe_base64_encode value.val

/-- `Base64UUIDField.to_internal_value`: an already-decoded `UUID` passes
through unchanged; text is base64-decoded and fed to `UUID(bytes=...)`,
which demands exactly 16 bytes; every `ValueError` on that path is
re-raised as `NotFound()`. -/
def Base64UUIDField.to_internal_value : B64Input → Except ApiError PyUUID
  | B64Input.uuid u => Except.ok u
  | B64Input.text s =>
    match urlsafe_base64_decode s with
    | none => Except.error ApiError.NotFound
    | some bytes =>
      if h : bytes.length = 16 ∧ ∀ b ∈ bytes, b < 256 then Except.ok ⟨bytes, h⟩
      else Except.error ApiError.NotFound

/-- RFC 3986 unreserved characters: the characters a URL component may
contain without percent-encoding. -/
def isUrlSafeChar (c : Char) : Bool :=
  c.isAlpha || c.isDigit || c = '-' || c = '.' || c = '_' || c = '~'

theorem b64Index_b64Char : ∀ n, n < 64 → b64Index (b64Char n) = some n := by decide

theorem b64Char_ne_pad : ∀ n, n < 64 → b64Char n ≠ '=' := by decide

theorem b64Char_urlsafe : ∀ n, n < 64 → isUrlSafeChar (b64Char n) = true := by decide

theorem decode_encode_aux (n : Nat) :
    ∀ l : List Nat, l.length ≤ n → (∀ b ∈ l, b < 256) → l.length % 3 = 1 →
      b64DecodeGroups (b64EncodeGroups l ++ ['=', '=']) = some l := by
  induction n with
  | zero =>
    intro l hlen _ hmod
    cases l with
    | nil => simp at hmod
    | cons a t => simp at hlen
  | succ n ih =>
    intro l hlen hb hmod
    match l with
    | [] => simp at hmod
    | [b1] =>
      have h1 : b1 < 256 := hb b1 (by simp)
      have e1 : b64Index (b64Char (b1 / 4)) = some (b1 / 4) :=
        b64Index_b64Char _ (by omega)
      have e2 : b64Index (b64Char (b1 % 4 * 16)) = some (b1 % 4 * 16) :=
        b64Index_b64Char _ (by omega)
      simp [b64EncodeGroups, b64DecodeGroups, e1, e2]
      omega
    | [b1, b2] => simp at hmod
    | b1 :: b2 :: b3 :: rest =>
      have h1 : b1 < 256 := hb b1 (by simp)
      have h2 : b2 < 256 := hb b2 (by simp)
      have h3 : b3 < 256 := hb b3 (by simp)
      have hbrest : ∀ b ∈ rest, b < 256 := fun b hbm => hb b (by simp [hbm])
      have hlenr : rest.length ≤ n := by simp at hlen; omega
      have hmodr : rest.length % 3 = 1 := by simp at hmod; omega
      have ihr := ih rest hlenr hbrest hmodr
      have e1 : b64Index (b64Char (b1 / 4)) = some (b1 / 4) :=
        b64Index_b64Char _ (by omega)
      have e2 : b64Index (b64Char (b1 % 4 * 16 + b2 / 16)) =
          some (b1 % 4 * 16 + b2 / 16) := b64Index_b64Char _ (by omega)
      have e3 : b64Index (b64Char (b2 % 16 * 4 + b3 / 64)) =
          some (b2 % 16 * 4 + b3 / 64) := b64Index_b64Char _ (by omega)
      have e4 : b64Index (b64Char (b3 % 64)) = some (b3 % 64) :=
        b64Index_b64Char _ (by omega)
      have ne3 : b64Char (b2 % 16 * 4 + b3 / 64) ≠ '=' :=
        b64Char_ne_pad _ (by omega)
      have ne4 : b64Char (b3 % 64) ≠ '=' := b64Char_ne_pad _ (by omega)
      simp [b64EncodeGroups, b64DecodeGroups, e1, e2, e3, e4, ne3, ne4, ihr]
      omega

theorem encode_length_mod (n : Nat) :
    ∀ l : List Nat, l.length ≤ n → l.length % 3 = 1 →
      (b64EncodeGroups l).length % 4 = 2 := by
  induction n with
  | zero =>
    intro l hlen hmod
    cases l with
    | nil => simp at hmod
    | cons a t => simp at hlen
  | succ n ih =>
    intro l hlen hmod
    match l with
    | [] => simp at hmod
    | [b1] => simp [b64EncodeGroups]
    | [b1, b2] => simp at hmod
    | b1 :: b2 :: b3 :: rest =>
      have hlenr : rest.length ≤ n := by simp at hlen; omega
      have hmodr : rest.length % 3 = 1 := by simp at hmod; omega
      have ihr := ih rest hlenr hmodr
      simp [b64EncodeGroups]
      omega

theorem encode_urlsafe_aux (n : Nat) :
    ∀ l : List Nat, l.length ≤ n → (∀ b ∈ l, b < 256) →
      ∀ c ∈ b64EncodeGroups l, isUrlSafeChar c = true := by
  induction n with
  | zero =>
    intro l hlen _ c hc
    cases l with
    | nil => simp [b64EncodeGroups] at hc
    | cons a t => simp at hlen
  | succ n ih =>
    intro l hlen hb c hc
    match l with
    | [] => simp [b64EncodeGroups] at hc
    | [b1] =>
      have h1 : b1 < 256 := hb b1 (by simp)
      simp [b64EncodeGroups] at hc
      rcases hc with h | h <;> subst h <;> exact b64Char_urlsafe _ (by omega)
    | [b1, b2] =>
      have h1 : b1 < 256 := hb b1 (by simp)
      have h2 : b2 < 256 := hb b2 (by simp)
      simp [b64EncodeGroups] at hc
      rcases hc with h | h | h <;> subst h <;> exact b64Char_urlsafe _ (by omega)
    | b1 :: b2 :: b3 :: rest =>
      have h1 : b1 < 256 := hb b1 (by simp)
      have h2 : b2 < 256 := hb b2 (by simp)
      have h3 : b3 < 256 := hb b3 (by simp)
      have hbrest : ∀ b ∈ rest, b < 256 := fun b hbm => hb b (by simp [hbm])
      have hlenr : rest.length ≤ n := by simp at hlen; omega
      simp [b64EncodeGroups] at hc
      rcases hc with h | h | h | h | h
      · subst h; exact b64Char_urlsafe _ (by omega)
      · subst h; exact b64Char_urlsafe _ (by omega)
      · subst h; exact b64Char_urlsafe _ (by omega)
      · subst h; exact b64Char_urlsafe _ (by omega)
      · exact ih rest hlenr hbrest c h

/-- Claim C5: for every binary identifier value (a 16-byte UUID), decoding
the encoded wire token recovers the value exactly, and every character of
the encoded token is URL-safe (needs no percent-encoding). -/
theorem Base64UUIDField.roundtrip_urlsafe (u : PyUUID) :
    Base64UUIDField.to_internal_value
        (B64Input.text (Base64UUIDField.to_representation u)) = Except.ok u ∧
    ∀ c ∈ Base64UUIDField.to_representation u, isUrlSafeChar c = true := by
  obtain ⟨l, hl⟩ := u
  have hmod : l.length % 3 = 1 := by rw [hl.1]
  have hdec : urlsafe_base64_decode (urlsafe_base64_encode l) = some l := by
    unfold urlsafe_base64_decode urlsafe_base64_encode
    rw [encode_length_mod l.length l (le_refl _) hmod]
    exact decode_encode_aux l.length l (le_refl _) hl.2 hmod
  constructor
  · show Base64UUIDField.to_internal_value
        (B64Input.text (urlsafe_base64_encode l)) = _
    simp only [Base64UUIDField.to_internal_value]
    rw [hdec]
    exact dif_pos hl
  · intro c hc
    exact encode_urlsafe_aux l.length l (le_refl _) hl.2 c hc

/-- Concrete 16-byte identifier used for witnesses. -/
def uuidSample : PyUUID :=
  ⟨[0, 1, 77, 254, 255, 16, 32, 64, 128, 200, 3, 9, 250, 100, 55, 21], by decide⟩

theorem roundtrip_urlsafe_witness :
    Base64UUIDField.to_internal_value
        (B64Input.text (Base64UUIDField.to_representation uuidSample)) =
      Except.ok uuidSample :=
  (Base64UUIDField.roundtrip_urlsafe uuidSample).1

/-- Any text input either decodes to an identifier or fails with NotFound:
no other outcome exists for the text branch of the field. -/
theorem b64field_text_cases (s : List Char) :
    Base64UUIDField.to_internal_value (B64Input.text s) =
        Except.error ApiError.NotFound ∨
    ∃ u : PyUUID,
      Base64UUIDField.to_internal_value (B64Input.text s) = Except.ok u := by
  simp only [Base64UUIDField.to_internal_value]
  cases h : urlsafe_base64_decode s with
  | none => left; rfl
  | some bytes =>
    by_cases hb : bytes.length = 16 ∧ ∀ b ∈ bytes, b < 256
    · right
      refine ⟨⟨bytes, hb⟩, ?_⟩
      exact dif_pos hb
    · left
      exact dif_neg hb

/-- Claim C7: identifier decode applied to an already-decoded value returns
it unchanged; on text it never raises a validation error — whenever it
fails (i.e. the text is malformed and yields no identifier), the failure is
exactly NotFound. -/
theorem Base64UUIDField.passthrough_notfound :
    (∀ u : PyUUID,
      Base64UUIDField.to_internal_value (B64Input.uuid u) = Except.ok u) ∧
    (∀ (s : List Char) (msg : String),
      Base64UUIDField.to_internal_value (B64Input.text s) ≠
        Except.error (ApiError.ValidationError msg)) ∧
    (∀ s : List Char,
      (∀ u : PyUUID,
        Base64UUIDField.to_internal_value (B64Input.text s) ≠ Except.ok u) →
      Base64UUIDField.to_internal_value (B64Input.text s) =
        Except.error ApiError.NotFound) := by
  refine ⟨fun u => rfl, ?_, ?_⟩
  · intro s msg hcontra
    rcases b64field_text_cases s with h | ⟨u, h⟩ <;> rw [h] at hcontra <;>
      simp at hcontra
  · intro s hfail
    rcases b64field_text_cases s with h | ⟨u, h⟩
    · exact h
    · exact absurd h (hfail u)

theorem passthrough_notfound_witness :
    Base64UUIDField.to_internal_value (B64Input.uuid uuidSample) =
        Except.ok uuidSample ∧
    Base64UUIDField.to_internal_value (B64Input.text ['!']) ≠
      Except.error (ApiError.ValidationError ("bad")) :=
  ⟨Base64UUIDField.passthrough_notfound.1 uuidSample,
   Base64UUIDField.passthrough_notfound.2.1 ['!'] ("bad")⟩

/-! ## Location entity manager (serializer class `Location`)

`models.Location` rows own a nullable coordinate column and an address.
The serializer method `create` pops `coordinates` (required) and runs
`Location.objects.get_or_create(coordinates=coords)`; `update` pops
`coordinates` with default `None` and runs the same find-or-create when the
popped value differs from the stored column.  `super().update` then
assigns the remaining present fields and saves the row. -/

/-- A `models.Location` row.  `locId` is the primary key; the coordinate
column is nullable because `get_or_create(coordinates=None)` can produce a
row without a coordinate. -/
structure LocationRec (Coord : Type) where
  locId : Nat
  coordinates : Option Coord
  address : String
deriving DecidableEq

/-- The `models.Location` table: its rows and the next fresh primary key. -/
structure LocDB (Coord : Type) where
  rows : List (LocationRec Coord)
  nextId : Nat
deriving DecidableEq

/-- `Location.objects.get_or_create(coordinates=coords)`: return the row
whose coordinate column equals `coords`, or insert a fresh row with that
coordinate and the model default (blank) address. -/
def LocDB.get_or_create {Coord : Type} [DecidableEq Coord]
    (db : LocDB Coord) (coords : Option Coord) :
    LocationRec Coord × LocDB Coord :=
  match db.rows.find? (fun r => decide (r.coordinates = coords)) with
  | some r => (r, db)
  | none =>
    (⟨db.nextId, coords, ""⟩, ⟨db.rows ++ [⟨db.nextId, coords, ""⟩], db.nextId + 1⟩)

/-- `instance.save()`: replace the stored row having the same primary key. -/
def LocDB.save {Coord : Type} (db : LocDB Coord) (r : LocationRec Coord) :
    LocDB Coord :=
  ⟨db.rows.map (fun q => if q.locId = r.locId then r else q), db.nextId⟩

/-- Validated input of `Location.create`: `coordinates` is a required
field of the serializer, `address` may be absent. -/
structure LocCreateData (Coord : Type) where
  coordinates : Coord
  address : Option String
deriving DecidableEq

/-- Validated input of `Location.update` (partial): either field may be
absent; popping `coordinates` with default `None` yields `none` when the
coordinate is absent. -/
structure LocUpdateData (Coord : Type) where
  coordinates : Option Coord
  address : Option String
deriving DecidableEq

/-- Field assignment of `ModelSerializer.update` on a Location instance:
set each field present in the remaining validated data (only `address` is
left after `coordinates` was popped). -/
def LocationRec.applyData {Coord : Type} (r : LocationRec Coord)
    (address : Option String) : LocationRec Coord :=
  { r with address := address.getD r.address }

/-- Serializer `Location.create`: pop `coordinates`, find-or-create the row
with that coordinate, then apply the remaining fields to it and save. -/
def Location.create {Coord : Type} [DecidableEq Coord]
    (db : LocDB Coord) (validated_data : LocCreateData Coord) :
    LocationRec Coord × LocDB Coord :=
  let coords := validated_data.coordinates
  let found := db.get_or_create (some coords)
  let location := found.1.applyData validated_data.address
  (location, found.2.save location)

/-- Serializer `Location.update`: pop `coordinates` (default `None`); when
the stored coordinate column differs from the popped value,
find-or-create the row keyed by the popped value and continue with it; then
apply the remaining fields and save. -/
def Location.update {Coord : Type} [DecidableEq Coord]
    (db : LocDB Coord) (location : LocationRec Coord)
    (validated_data : LocUpdateData Coord) :
    LocationRec Coord × LocDB Coord :=
  let coords := validated_data.coordinates
  let switched :=
    if location.coordinates ≠ coords then db.get_or_create coords
    else (location, db)
  let updated := switched.1.applyData validated_data.address
  (updated, switched.2.save updated)

/-- Helper: `get_or_create` when a row with the coordinate exists. -/
theorem get_or_create_eq_found {Coord : Type} [DecidableEq Coord]
    {db : LocDB Coord} {coords : Option Coord} {r : LocationRec Coord}
    (h : db.rows.find? (fun q => decide (q.coordinates = coords)) = some r) :
    db.get_or_create coords = (r, db) := by
  unfold LocDB.get_or_create
  rw [h]

/-- Helper: `get_or_create` when no row with the coordinate exists. -/
theorem get_or_create_eq_new {Coord : Type} [DecidableEq Coord]
    {db : LocDB Coord} {coords : Option Coord}
    (h : db.rows.find? (fun q => decide (q.coordinates = coords)) = none) :
    db.get_or_create coords =
      (⟨db.nextId, coords, ""⟩,
       ⟨db.rows ++ [⟨db.nextId, coords, ""⟩], db.nextId + 1⟩) := by
  unfold LocDB.get_or_create
  rw [h]

/-- A concrete Location row and table used by concrete evaluations. -/
def locRowA : LocationRec Int := ⟨0, some 5, "old street"⟩

def locDbA : LocDB Int := ⟨[locRowA], 1⟩

/-- Claim C1 (refuted by the code): an update whose payload has no
coordinate does NOT mutate the existing Location in place.  The code pops
`coordinates` with default `None`; the non-null stored coordinate
differs from `None`, so `get_or_create(coordinates=None)` runs and the
other fields are applied to a fresh coordinate-less row.  At this concrete
input the returned record is a new row with primary key 1 and no
coordinate, while the original row 0 keeps its old address. -/
theorem location_update_no_coord_bug :
    (Location.update locDbA locRowA ⟨none, some ("new street")⟩).1 =
        ⟨1, none, "new street"⟩ ∧
    (Location.update locDbA locRowA ⟨none, some ("new street")⟩).2.rows =
        [⟨0, some 5, "old street"⟩, ⟨1, none, "new street"⟩] := by
  decide

/-- Claim C9: when the coordinate of a `Location.create` call already has a
row, create makes no new row: the submitted remaining fields are applied
onto the pre-existing shared record, which is saved back, so the submitted
address overwrites the stored one for every entity referencing that row. -/
theorem location_create_existing_row {Coord : Type} [DecidableEq Coord]
    (db : LocDB Coord) (r : LocationRec Coord) (d : LocCreateData Coord)
    (hfind : db.rows.find?
        (fun q => decide (q.coordinates = some d.coordinates)) = some r) :
    Location.create db d =
        (r.applyData d.address, db.save (r.applyData d.address)) ∧
    (Location.create db d).2.rows.length = db.rows.length := by
  have hgc : db.get_or_create (some d.coordinates) = (r, db) :=
    get_or_create_eq_found hfind
  constructor
  · simp only [Location.create, hgc]
  · simp only [Location.create, hgc, LocDB.save]
    exact List.length_map _ _

theorem location_create_existing_row_witness :
    Location.create locDbA ⟨5, some ("new street")⟩ =
      (locRowA.applyData (some ("new street")),
        locDbA.save (locRowA.applyData (some ("new street")))) ∧
    (Location.create locDbA ⟨5, some ("new street")⟩).2.rows.length =
      locDbA.rows.length :=
  location_create_existing_row locDbA locRowA ⟨5, some ("new street")⟩ (by decide)

/-- One serializer write against the Location table: a `create` with
validated data, or an `update` addressed to the stored row with the given
primary key (a no-op when no such row exists). -/
inductive LocOp (Coord : Type) where
  | create (d : LocCreateData Coord)
  | update (locId : Nat) (d : LocUpdateData Coord)

/-- Run one Location serializer operation against the table. -/
def LocDB.runOp {Coord : Type} [DecidableEq Coord]
    (db : LocDB Coord) : LocOp Coord → LocDB Coord
  | LocOp.create d => (Location.create db d).2
  | LocOp.update i d =>
    match db.rows.find? (fun r => decide (r.locId = i)) with
    | some location => (Location.update db location d).2
    | none => db

/-- Run a sequence of Location serializer operations. -/
def LocDB.run {Coord : Type} [DecidableEq Coord]
    (db : LocDB Coord) (ops : List (LocOp Coord)) : LocDB Coord :=
  ops.foldl LocDB.runOp db

/-- At most one Location row per coordinate value. -/
def UniqueCoords {Coord : Type} (db : LocDB Coord) : Prop :=
  db.rows.Pairwise (fun a b => a.coordinates ≠ b.coordinates)

/-- Primary keys are pairwise distinct. -/
def UniqueIds {Coord : Type} (db : LocDB Coord) : Prop :=
  db.rows.Pairwise (fun a b => a.locId ≠ b.locId)

/-- Every stored primary key is below the fresh-key counter. -/
def IdsBounded {Coord : Type} (db : LocDB Coord) : Prop :=
  ∀ r ∈ db.rows, r.locId < db.nextId

/-- Well-formedness of the Location table. -/
def LocInv {Coord : Type} (db : LocDB Coord) : Prop :=
  UniqueCoords db ∧ UniqueIds db ∧ IdsBounded db

/-- Rows with equal primary keys are equal under `UniqueIds`. -/
theorem rows_unique_by_id {Coord : Type} {db : LocDB Coord} (h : UniqueIds db)
    {a b : LocationRec Coord} (ha : a ∈ db.rows) (hb : b ∈ db.rows)
    (hab : a.locId = b.locId) : a = b := by
  by_contra hne
  exact absurd hab
    (List.Pairwise.forall (fun x y hxy => Ne.symm hxy) h ha hb hne)

/-- `get_or_create` preserves the table invariant, returns a stored row
carrying the requested coordinate, and never lowers the key counter. -/
theorem get_or_create_spec {Coord : Type} [DecidableEq Coord]
    (db : LocDB Coord) (coords : Option Coord) (hinv : LocInv db) :
    LocInv (db.get_or_create coords).2 ∧
    (db.get_or_create coords).1 ∈ (db.get_or_create coords).2.rows ∧
    (db.get_or_create coords).1.coordinates = coords := by
  obtain ⟨hc, hi, hbnd⟩ := hinv
  cases hfind : db.rows.find? (fun q => decide (q.coordinates = coords)) with
  | some r =>
    rw [get_or_create_eq_found hfind]
    have hmem := List.mem_of_find?_eq_some hfind
    have heq := List.find?_some
      (p := fun q : LocationRec Coord => decide (q.coordinates = coords)) hfind
    exact ⟨⟨hc, hi, hbnd⟩, hmem, by simpa using heq⟩
  | none =>
    rw [get_or_create_eq_new hfind]
    have hnotc : ∀ q ∈ db.rows, q.coordinates ≠ coords := by
      intro q hq
      have := List.find?_eq_none.mp hfind q hq
      simpa using this
    refine ⟨⟨?_, ?_, ?_⟩, by simp, rfl⟩
    · unfold UniqueCoords
      rw [List.pairwise_append]
      refine ⟨hc, by simp, fun a ha b hb => ?_⟩
      simp only [List.mem_singleton] at hb
      subst hb
      exact hnotc a ha
    · unfold UniqueIds
      rw [List.pairwise_append]
      refine ⟨hi, by simp, fun a ha b hb => ?_⟩
      simp only [List.mem_singleton] at hb
      subst hb
      exact Nat.ne_of_lt (hbnd a ha)
    · intro r hr
      rcases List.mem_append.mp hr with hr | hr
      · exact Nat.lt_succ_of_lt (hbnd r hr)
      · simp only [List.mem_singleton] at hr
        subst hr
        exact Nat.lt_succ_self _

/-- Saving a row whose coordinate agrees with every stored row carrying the
same primary key preserves the table invariant. -/
theorem save_inv {Coord : Type} [DecidableEq Coord]
    (db : LocDB Coord) (r : LocationRec Coord) (hinv : LocInv db)
    (hco : ∀ q ∈ db.rows, q.locId = r.locId → q.coordinates = r.coordinates) :
    LocInv (db.save r) := by
  obtain ⟨hc, hi, hbnd⟩ := hinv
  have hid : ∀ q : LocationRec Coord,
      (if q.locId = r.locId then r else q).locId = q.locId := by
    intro q
    split
    · next h => rw [h]
    · rfl
  have hcoor : ∀ q ∈ db.rows,
      (if q.locId = r.locId then r else q).coordinates = q.coordinates := by
    intro q hq
    split
    · next h => rw [hco q hq h]
    · rfl
  refine ⟨?_, ?_, ?_⟩
  · unfold UniqueCoords LocDB.save
    rw [List.pairwise_map]
    refine List.Pairwise.imp_of_mem ?_ hc
    intro a b ha hb hne
    simpa only [hcoor a ha, hcoor b hb] using hne
  · unfold UniqueIds LocDB.save
    rw [List.pairwise_map]
    refine List.Pairwise.imp ?_ hi
    intro a b hne
    simpa only [hid a, hid b] using hne
  · intro q hq
    simp only [LocDB.save, List.mem_map] at hq
    obtain ⟨w, hw, rfl⟩ := hq
    show (if w.locId = r.locId then r else w).locId < db.nextId
    rw [hid w]
    exact hbnd w hw

/-- `Location.update` equation in the branch where the popped coordinate
differs from the stored column. -/
theorem location_update_eq_switch {Coord : Type} [DecidableEq Coord]
    {db : LocDB Coord} {loc : LocationRec Coord} {d : LocUpdateData Coord}
    (h : loc.coordinates ≠ d.coordinates) :
    Location.update db loc d =
      ((db.get_or_create d.coordinates).1.applyData d.address,
       (db.get_or_create d.coordinates).2.save
         ((db.get_or_create d.coordinates).1.applyData d.address)) := by
  simp only [Location.update]
  rw [if_pos h]

/-- `Location.update` equation in the branch where the popped coordinate
equals the stored column (in-place path). -/
theorem location_update_eq_same {Coord : Type} [DecidableEq Coord]
    {db : LocDB Coord} {loc : LocationRec Coord} {d : LocUpdateData Coord}
    (h : ¬loc.coordinates ≠ d.coordinates) :
    Location.update db loc d =
      (loc.applyData d.address, db.save (loc.applyData d.address)) := by
  simp only [Location.update]
  rw [if_neg h]

/-- `Location.create` preserves the table invariant. -/
theorem create_inv {Coord : Type} [DecidableEq Coord]
    (db : LocDB Coord) (d : LocCreateData Coord) (hinv : LocInv db) :
    LocInv (Location.create db d).2 := by
  obtain ⟨hinv1, hmem, hcoords⟩ :=
    get_or_create_spec db (some d.coordinates) hinv
  show LocInv ((db.get_or_create (some d.coordinates)).2.save
    ((db.get_or_create (some d.coordinates)).1.applyData d.address))
  refine save_inv _ _ hinv1 ?_
  intro q hq hqid
  have hq1 : q = (db.get_or_create (some d.coordinates)).1 :=
    rows_unique_by_id hinv1.2.1 hq hmem hqid
  rw [hq1]
  rfl

/-- `Location.update` preserves the table invariant when applied to a
stored row. -/
theorem update_inv {Coord : Type} [DecidableEq Coord]
    (db : LocDB Coord) (location : LocationRec Coord) (d : LocUpdateData Coord)
    (hinv : LocInv db) (hmem : location ∈ db.rows) :
    LocInv (Location.update db location d).2 := by
  by_cases hco : location.coordinates ≠ d.coordinates
  · rw [location_update_eq_switch hco]
    obtain ⟨hinv1, hmem1, hcoords⟩ := get_or_create_spec db d.coordinates hinv
    refine save_inv _ _ hinv1 ?_
    intro q hq hqid
    have hq1 : q = (db.get_or_create d.coordinates).1 :=
      rows_unique_by_id hinv1.2.1 hq hmem1 hqid
    rw [hq1]
    rfl
  · rw [location_update_eq_same hco]
    refine save_inv _ _ hinv ?_
    intro q hq hqid
    have hq1 : q = location := rows_unique_by_id hinv.2.1 hq hmem hqid
    rw [hq1]
    rfl

/-- Every single serializer operation preserves the table invariant. -/
theorem runOp_inv {Coord : Type} [DecidableEq Coord]
    (db : LocDB Coord) (op : LocOp Coord) (hinv : LocInv db) :
    LocInv (db.runOp op) := by
  cases op with
  | create d => exact create_inv db d hinv
  | update i d =>
    show LocInv (match db.rows.find? (fun r => decide (r.locId = i)) with
      | some location => (Location.update db location d).2
      | none => db)
    cases hfind : db.rows.find? (fun r => decide (r.locId = i)) with
    | some location =>
      exact update_inv db location d hinv (List.mem_of_find?_eq_some hfind)
    | none => exact hinv

/-- Any sequence of serializer operations preserves the table invariant. -/
theorem run_inv {Coord : Type} [DecidableEq Coord] (ops : List (LocOp Coord)) :
    ∀ db : LocDB Coord, LocInv db → LocInv (db.run ops) := by
  induction ops with
  | nil => exact fun db h => h
  | cons op rest ih => exact fun db h => ih (db.runOp op) (runOp_inv db op h)

/-- Finding by coordinate commutes with a map that preserves the
coordinate of every stored row. -/
theorem find_map_save {Coord : Type} [DecidableEq Coord]
    (l : List (LocationRec Coord)) (f : LocationRec Coord → LocationRec Coord)
    (hf : ∀ q ∈ l, (f q).coordinates = q.coordinates) (coords : Option Coord) :
    (l.map f).find? (fun q => decide (q.coordinates = coords)) =
      (l.find? (fun q => decide (q.coordinates = coords))).map f := by
  induction l with
  | nil => rfl
  | cons a t ih =>
    have ha : (f a).coordinates = a.coordinates := hf a (by simp)
    have ht : ∀ q ∈ t, (f q).coordinates = q.coordinates :=
      fun q hq => hf q (by simp [hq])
    by_cases hc : a.coordinates = coords
    · rw [List.map_cons, List.find?_cons_of_pos, List.find?_cons_of_pos]
      · rfl
      · simp [hc]
      · simp [ha, hc]
    · rw [List.map_cons, List.find?_cons_of_neg, List.find?_cons_of_neg]
      · exact ih ht
      · simp [hc]
      · simp [ha, hc]

/-- Under coordinate uniqueness, finding by coordinate returns the stored
row carrying that coordinate. -/
theorem find_coord_unique {Coord : Type} [DecidableEq Coord]
    {l : List (LocationRec Coord)}
    (hpw : l.Pairwise (fun a b => a.coordinates ≠ b.coordinates))
    {r : LocationRec Coord} (hr : r ∈ l) {coords : Option Coord}
    (hc : r.coordinates = coords) :
    l.find? (fun q => decide (q.coordinates = coords)) = some r := by
  induction l with
  | nil => cases hr
  | cons a t ih =>
    rcases List.mem_cons.mp hr with rfl | hrt
    · rw [List.find?_cons_of_pos]
      simp [hc]
    · have hane : a.coordinates ≠ r.coordinates :=
        (List.pairwise_cons.mp hpw).1 r hrt
      rw [List.find?_cons_of_neg]
      · exact ih (List.pairwise_cons.mp hpw).2 hrt
      · rw [← hc]
        simpa using hane

/-- A second `Location.create` with the same coordinate as a first one
returns the very record produced by the first. -/
theorem create_create_same {Coord : Type} [DecidableEq Coord]
    (db : LocDB Coord) (d1 d2 : LocCreateData Coord) (hinv : LocInv db)
    (hsame : d1.coordinates = d2.coordinates) :
    (Location.create (Location.create db d1).2 d2).1.locId =
      (Location.create db d1).1.locId := by
  obtain ⟨hinv1, hmem1, hcoords1⟩ :=
    get_or_create_spec db (some d1.coordinates) hinv
  set found := db.get_or_create (some d1.coordinates) with hfound
  set r1 := found.1.applyData d1.address with hr1
  have hcr1 : Location.create db d1 = (r1, found.2.save r1) := rfl
  have hfmap : ∀ q ∈ found.2.rows,
      ((fun q => if q.locId = r1.locId then r1 else q) q).coordinates =
        q.coordinates := by
    intro q hq
    by_cases hql : q.locId = r1.locId
    · have hq1 : q = found.1 := rows_unique_by_id hinv1.2.1 hq hmem1 hql
      subst hq1
      show (if found.1.locId = r1.locId then r1 else found.1).coordinates =
        found.1.coordinates
      rw [if_pos hql]
      rfl
    · show (if q.locId = r1.locId then r1 else q).coordinates = q.coordinates
      rw [if_neg hql]
  have hfind2 : (found.2.save r1).rows.find?
      (fun q => decide (q.coordinates = some d2.coordinates)) = some r1 := by
    show ((found.2.rows.map (fun q => if q.locId = r1.locId then r1 else q)).find?
      (fun q => decide (q.coordinates = some d2.coordinates))) = some r1
    rw [find_map_save found.2.rows _ hfmap]
    have : found.2.rows.find?
        (fun q => decide (q.coordinates = some d2.coordinates)) = some found.1 := by
      refine find_coord_unique hinv1.1 hmem1 ?_
      rw [hcoords1, hsame]
    rw [this]
    show some (if found.1.locId = r1.locId then r1 else found.1) = some r1
    have hcond : found.1.locId = r1.locId := rfl
    rw [if_pos hcond]
  rw [hcr1]
  show ((found.2.save r1).get_or_create (some d2.coordinates)).1.locId = r1.locId
  rw [get_or_create_eq_found hfind2]

/-- Claim C4: Location records are deduplicated by coordinate — a second
`create` with the same coordinate yields the same underlying row, and after
any sequence of create/update operations run against a well-formed table
(e.g. the empty one) at most one Location row exists per coordinate value. -/
theorem location_dedup_by_coordinate {Coord : Type} [DecidableEq Coord]
    (db : LocDB Coord) (hinv : LocInv db) :
    (∀ d1 d2 : LocCreateData Coord, d1.coordinates = d2.coordinates →
      (Location.create (Location.create db d1).2 d2).1.locId =
        (Location.create db d1).1.locId) ∧
    (∀ ops : List (LocOp Coord), UniqueCoords (db.run ops)) :=
  ⟨fun d1 d2 hs => create_create_same db d1 d2 hinv hs,
   fun ops => (run_inv ops db hinv).1⟩

/-- The empty Location table. -/
def locDbEmpty : LocDB Int := ⟨[], 0⟩

theorem locDbEmpty_inv : LocInv locDbEmpty :=
  ⟨List.Pairwise.nil, List.Pairwise.nil,
   fun r hr => absurd hr (List.not_mem_nil r)⟩

theorem location_dedup_by_coordinate_witness :
    (Location.create (Location.create locDbEmpty ⟨7, some ("a")⟩).2
        ⟨7, some ("b")⟩).1.locId =
      (Location.create locDbEmpty ⟨7, some ("a")⟩).1.locId ∧
    UniqueCoords (locDbEmpty.run
      [LocOp.create ⟨7, some ("a")⟩, LocOp.update 0 ⟨some 9, none⟩]) :=
  ⟨(location_dedup_by_coordinate locDbEmpty locDbEmpty_inv).1
      ⟨7, some ("a")⟩ ⟨7, some ("b")⟩ rfl,
   (location_dedup_by_coordinate locDbEmpty locDbEmpty_inv).2
      [LocOp.create ⟨7, some ("a")⟩, LocOp.update 0 ⟨some 9, none⟩]⟩

/-! ## Category codec (CategoryField)

`models.Category` is a tree taxonomy; `Category.objects.get(name=...)`
looks a node up by exact name (the lookup is modelled over a table with
pairwise-distinct names, matching the unique-name constraint assumed by
`get`), and `is_leaf_node()` holds when the node has no children. -/

/-- A `models.Category` node: its exact name and its children. -/
structure CategoryRec where
  name : String
  children : List String
deriving DecidableEq

/-- `category.is_leaf_node()`: no children. -/
def CategoryRec.is_leaf_node (c : CategoryRec) : Bool := c.children.isEmpty

/-- `CategoryField.to_internal_value`: look the category up by exact name;
absence raises the fixed "Category doesn\x27t exist." validation error; a
non-leaf match raises the fixed "Category should be at lowest level."
validation error; otherwise the matched leaf is returned. -/
def CategoryField.to_internal_value (cats : List CategoryRec)
    (category_name : String) : Except ApiError CategoryRec :=
  match cats.find? (fun c => decide (c.name = category_name)) with
  | none => Except.error (ApiError.ValidationError ("Category doesn\x27t exist."))
  | some category =>
    if category.is_leaf_node then Except.ok category
    else Except.error
      (ApiError.ValidationError ("Category should be at lowest level."))

/-- Under name uniqueness, finding by name returns the stored node with
that name. -/
theorem find_name_unique {l : List CategoryRec}
    (hpw : l.Pairwise (fun a b => a.name ≠ b.name))
    {c : CategoryRec} (hc : c ∈ l) {nm : String} (hnm : c.name = nm) :
    l.find? (fun q => decide (q.name = nm)) = some c := by
  induction l with
  | nil => cases hc
  | cons a t ih =>
    rcases List.mem_cons.mp hc with rfl | hct
    · rw [List.find?_cons_of_pos]
      simp [hnm]
    · have hane : a.name ≠ c.name := (List.pairwise_cons.mp hpw).1 c hct
      rw [List.find?_cons_of_neg]
      · exact ih (List.pairwise_cons.mp hpw).2 hct
      · rw [← hnm]
        simpa using hane

/-- Claim C8: Category parse fails with "Category doesn\x27t exist." when no
category bears the name, fails with "Category should be at lowest level."
when the matched category has children, and returns the matched leaf
category otherwise. -/
theorem categoryfield_parse_cases (cats : List CategoryRec)
    (category_name : String)
    (huniq : cats.Pairwise (fun a b => a.name ≠ b.name)) :
    ((∀ c ∈ cats, c.name ≠ category_name) →
      CategoryField.to_internal_value cats category_name =
        Except.error (ApiError.ValidationError ("Category doesn\x27t exist."))) ∧
    (∀ c ∈ cats, c.name = category_name → c.is_leaf_node = false →
      CategoryField.to_internal_value cats category_name =
        Except.error
          (ApiError.ValidationError ("Category should be at lowest level."))) ∧
    (∀ c ∈ cats, c.name = category_name → c.is_leaf_node = true →
      CategoryField.to_internal_value cats category_name = Except.ok c) := by
  refine ⟨?_, ?_, ?_⟩
  · intro habs
    have hnone : cats.find? (fun c => decide (c.name = category_name)) = none := by
      rw [List.find?_eq_none]
      intro c hcm
      simpa using habs c hcm
    unfold CategoryField.to_internal_value
    rw [hnone]
  · intro c hcm hname hleaf
    have hfind := find_name_unique huniq hcm hname
    unfold CategoryField.to_internal_value
    rw [hfind]
    show (if c.is_leaf_node = true then Except.ok c
      else Except.error
        (ApiError.ValidationError ("Category should be at lowest level."))) = _
    rw [if_neg (by simp [hleaf])]
  · intro c hcm hname hleaf
    have hfind := find_name_unique huniq hcm hname
    unfold CategoryField.to_internal_value
    rw [hfind]
    show (if c.is_leaf_node = true then Except.ok c
      else Except.error
        (ApiError.ValidationError ("Category should be at lowest level."))) = _
    rw [if_pos hleaf]

/-- Concrete category table for the C8 witness: a non-leaf parent and its
leaf child. -/
def catsSample : List CategoryRec :=
  [⟨"Electronics", ["Phones"]⟩, ⟨"Phones", []⟩]

theorem categoryfield_parse_cases_witness :
    CategoryField.to_internal_value catsSample ("Furniture") =
      Except.error (ApiError.ValidationError ("Category doesn\x27t exist.")) ∧
    CategoryField.to_internal_value catsSample ("Electronics") =
      Except.error
        (ApiError.ValidationError ("Category should be at lowest level.")) ∧
    CategoryField.to_internal_value catsSample ("Phones") =
      Except.ok ⟨"Phones", []⟩ :=
  ⟨(categoryfield_parse_cases catsSample ("Furniture") (by decide)).1
      (by decide),
   (categoryfield_parse_cases catsSample ("Electronics") (by decide)).2.1
      ⟨"Electronics", ["Phones"]⟩ (by decide) rfl rfl,
   (categoryfield_parse_cases catsSample ("Phones") (by decide)).2.2
      ⟨"Phones", []⟩ (by decide) rfl rfl⟩

/-! ## Profile and Listing partial updates (serializers `Profile`,
`Listing`)

Both `update` methods pop the nested `location` payload with default
`None` and delegate to `Location().update` only when the popped value is
truthy (a walrus-if on the popped location value), so
`None` and the empty validated dict behave identically; the remaining
fields go through the ordinary partial assignment of `super().update`.
UUID column values are modelled as bare naturals here; their wire codec is
verified separately above. -/

/-- A `models.Profile` row with its owning user and its FK-loaded
(nullable) Location object. -/
structure ProfileRec (Coord : Type) where
  profId : Nat
  uuid : Nat
  userId : Nat
  full_name : String
  about : String
  avatar : String
  location : Option (LocationRec Coord)
deriving DecidableEq

/-- Validated input of `Profile.update` (partial): the writable fields;
an absent key is `none`; a present-but-empty nested location dict is
`some ⟨none, none⟩`. -/
structure ProfileUpdateData (Coord : Type) where
  full_name : Option String
  about : Option String
  avatar : Option String
  location : Option (LocUpdateData Coord)
deriving DecidableEq

/-- Python truthiness of the popped `location` payload: `None` (absent)
and the empty validated dict are falsy. -/
def locPayloadTruthy {Coord : Type} : Option (LocUpdateData Coord) → Bool
  | none => false
  | some d => d.coordinates.isSome || d.address.isSome

/-- Field assignment of `super().update` for Profile (`location` was popped
before this runs, so it only assigns the scalar fields present). -/
def ProfileRec.applyData {Coord : Type} (p : ProfileRec Coord)
    (d : ProfileUpdateData Coord) : ProfileRec Coord :=
  { p with
    full_name := d.full_name.getD p.full_name
    about := d.about.getD p.about
    avatar := d.avatar.getD p.avatar }

/-- Serializer `Profile.update`: pop `location`; when the popped payload is
truthy, run `Location().update` against the current Location of the profile
(`none` models the AttributeError crash when no Location is loaded) and
repoint the profile at the result; finally apply the remaining fields. -/
def Profile.update {Coord : Type} [DecidableEq Coord]
    (ldb : LocDB Coord) (profile : ProfileRec Coord)
    (validated_data : ProfileUpdateData Coord) :
    Option (ProfileRec Coord × LocDB Coord) :=
  if locPayloadTruthy validated_data.location then
    match validated_data.location, profile.location with
    | some location_data, some current =>
      let res := Location.update ldb current location_data
      some ({ profile.applyData validated_data with location := some res.1 },
        res.2)
    | _, _ => none
  else some (profile.applyData validated_data, ldb)

/-- A `models.Listing` row: the client-writable columns and the FK-loaded
(nullable) Location; system-owned read-only columns that the update path
never touches are omitted. -/
structure ListingRow (Coord : Type) where
  listId : Nat
  uuid : Nat
  title : String
  description : String
  price : Nat
  category : String
  status : Nat
  quantity : Nat
  condition_new : Bool
  properties : String
  location : Option (LocationRec Coord)
deriving DecidableEq

/-- Validated input of `Listing.update` (partial). -/
structure ListingUpdateData (Coord : Type) where
  title : Option String
  description : Option String
  price : Option Nat
  category : Option String
  status : Option Nat
  quantity : Option Nat
  condition_new : Option Bool
  properties : Option String
  location : Option (LocUpdateData Coord)
deriving DecidableEq

/-- Field assignment of `super().update` for Listing (`location` popped
beforehand). -/
def ListingRow.applyData {Coord : Type} (l : ListingRow Coord)
    (d : ListingUpdateData Coord) : ListingRow Coord :=
  { l with
    title := d.title.getD l.title
    description := d.description.getD l.description
    price := d.price.getD l.price
    category := d.category.getD l.category
    status := d.status.getD l.status
    quantity := d.quantity.getD l.quantity
    condition_new := d.condition_new.getD l.condition_new
    properties := d.properties.getD l.properties }

/-- Serializer `Listing.update`: same shape as `Profile.update`. -/
def Listing.update {Coord : Type} [DecidableEq Coord]
    (ldb : LocDB Coord) (listing : ListingRow Coord)
    (validated_data : ListingUpdateData Coord) :
    Option (ListingRow Coord × LocDB Coord) :=
  if locPayloadTruthy validated_data.location then
    match validated_data.location, listing.location with
    | some location_data, some current =>
      let res := Location.update ldb current location_data
      some ({ listing.applyData validated_data with location := some res.1 },
        res.2)
    | _, _ => none
  else some (listing.applyData validated_data, ldb)

/-- Claim C10: in both `Profile.update` and `Listing.update`, a location
payload that is present but falsy (the empty object) is treated exactly
like an absent one: the nested Location update is not invoked — the
Location table is untouched and the entity keeps referencing its current
Location record — and the remaining fields are applied by ordinary partial
update. -/
theorem update_falsy_location_frame {Coord : Type} [DecidableEq Coord]
    (ldb : LocDB Coord) (profile : ProfileRec Coord)
    (listing : ListingRow Coord)
    (pd : ProfileUpdateData Coord) (ld : ListingUpdateData Coord)
    (hp : pd.location = none ∨ pd.location = some ⟨none, none⟩)
    (hl : ld.location = none ∨ ld.location = some ⟨none, none⟩) :
    Profile.update ldb profile pd = some (profile.applyData pd, ldb) ∧
    (profile.applyData pd).location = profile.location ∧
    Profile.update ldb profile pd =
      Profile.update ldb profile { pd with location := none } ∧
    Listing.update ldb listing ld = some (listing.applyData ld, ldb) ∧
    (listing.applyData ld).location = listing.location ∧
    Listing.update ldb listing ld =
      Listing.update ldb listing { ld with location := none } := by
  have hpt : locPayloadTruthy pd.location = false := by
    rcases hp with h | h <;> rw [h] <;> rfl
  have hlt : locPayloadTruthy ld.location = false := by
    rcases hl with h | h <;> rw [h] <;> rfl
  have hpu : Profile.update ldb profile pd =
      some (profile.applyData pd, ldb) := by
    unfold Profile.update
    rw [hpt]
    simp
  have hpu2 : Profile.update ldb profile { pd with location := none } =
      some (profile.applyData pd, ldb) := by
    unfold Profile.update
    simp only [locPayloadTruthy]
    simp
    rfl
  have hlu : Listing.update ldb listing ld =
      some (listing.applyData ld, ldb) := by
    unfold Listing.update
    rw [hlt]
    simp
  have hlu2 : Listing.update ldb listing { ld with location := none } =
      some (listing.applyData ld, ldb) := by
    unfold Listing.update
    simp only [locPayloadTruthy]
    simp
    rfl
  exact ⟨hpu, rfl, by rw [hpu, hpu2], hlu, rfl, by rw [hlu, hlu2]⟩

/-- Concrete records for the C10 witness. -/
def profileSample : ProfileRec Int := ⟨3, 30, 11, "Ann", "bio", "pic", none⟩

def listingSample : ListingRow Int :=
  ⟨4, 40, "Bike", "red", 100, "Sports", 0, 1, true, "{}", some locRowA⟩

theorem update_falsy_location_frame_witness :
    Profile.update locDbA profileSample
        ⟨some ("Bob"), none, none, some ⟨none, none⟩⟩ =
      some (profileSample.applyData ⟨some ("Bob"), none, none, some ⟨none, none⟩⟩,
        locDbA) ∧
    (profileSample.applyData
        ⟨some ("Bob"), none, none, some ⟨none, none⟩⟩).location =
      profileSample.location ∧
    Profile.update locDbA profileSample
        ⟨some ("Bob"), none, none, some ⟨none, none⟩⟩ =
      Profile.update locDbA profileSample ⟨some ("Bob"), none, none, none⟩ ∧
    Listing.update locDbA listingSample
        ⟨none, none, some 42, none, none, none, none, none, some ⟨none, none⟩⟩ =
      some (listingSample.applyData
          ⟨none, none, some 42, none, none, none, none, none, some ⟨none, none⟩⟩,
        locDbA) ∧
    (listingSample.applyData
        ⟨none, none, some 42, none, none, none, none, none,
          some ⟨none, none⟩⟩).location = listingSample.location ∧
    Listing.update locDbA listingSample
        ⟨none, none, some 42, none, none, none, none, none, some ⟨none, none⟩⟩ =
      Listing.update locDbA listingSample
        ⟨none, none, some 42, none, none, none, none, none, none⟩ :=
  update_falsy_location_frame locDbA profileSample listingSample
    ⟨some ("Bob"), none, none, some ⟨none, none⟩⟩
    ⟨none, none, some 42, none, none, none, none, none, some ⟨none, none⟩⟩
    (Or.inr rfl) (Or.inr rfl)

/-! ## Account creation (serializer `User`)

`User.create` pops `fcm_id` and `full_name`, then inside one atomic
transaction runs `Device.objects.get_or_create(fcm_id=fcm_id)`; when the
Device already existed it is reactivated and its owning account
(`device.owner`, the reverse one-to-one accessor) is returned; otherwise
`User.objects.create_user(device=device, **validated_data)` makes the
account and the submitted full name is written to its profile. -/

/-- A `models.Device` row. -/
structure Device where
  devId : Nat
  fcm_id : String
  is_active : Bool
  fails_count : Nat
deriving DecidableEq

/-- A `models.User` account row: credentials and its bound device. -/
structure Account where
  accId : Nat
  email : String
  password : String
  deviceId : Nat
deriving DecidableEq

/-- The user-related tables. -/
structure UserDB (Coord : Type) where
  devices : List Device
  accounts : List Account
  profiles : List (ProfileRec Coord)
  nextId : Nat

/-- Validated input of `User.create`. -/
structure UserCreateData where
  full_name : String
  email : String
  password : String
  fcm_id : String
deriving DecidableEq

/-- `device.owner`: the account bound to the device (reverse accessor). -/
def UserDB.owner {Coord : Type} (db : UserDB Coord) (device : Device) :
    Option Account :=
  db.accounts.find? (fun a => decide (a.deviceId = device.devId))

/-- Modelled from the spec: `models.User.objects.create_user` and the
Profile auto-creation live in `models.py`, which is not part of the given
sources.  Per the spec ("no Account is ever created without an associated
Device and Profile"), it creates the Account with the validated credentials
bound to the given Device together with a fresh Profile (whose name starts
empty and is then assigned by the serializer). -/
def UserDB.create_user {Coord : Type} (db : UserDB Coord) (device : Device)
    (email password : String) : Account × UserDB Coord :=
  let acc : Account := ⟨db.nextId, email, password, device.devId⟩
  let prof : ProfileRec Coord :=
    ⟨db.nextId + 1, db.nextId + 1, acc.accId, "", "", "", none⟩
  (acc, ⟨db.devices, db.accounts ++ [acc], db.profiles ++ [prof],
    db.nextId + 2⟩)

/-- Serializer `User.create`: find-or-create the Device by `fcm_id`.  An
existing Device is reactivated (`is_active = True`, `fails_count = 0`,
saved) and its owner returned (`none` models the dangling-owner crash); a
fresh Device (created with the model defaults) gets a brand-new account
whose profile receives the submitted full name. -/
def User.create {Coord : Type} (db : UserDB Coord)
    (validated_data : UserCreateData) : Option Account × UserDB Coord :=
  let fcm_id := validated_data.fcm_id
  let full_name := validated_data.full_name
  match db.devices.find? (fun d => decide (d.fcm_id = fcm_id)) with
  | some device =>
    let device2 : Device := { device with is_active := true, fails_count := 0 }
    let db2 : UserDB Coord :=
      { db with devices :=
          db.devices.map (fun d => if d.devId = device.devId then device2 else d) }
    (db2.owner device2, db2)
  | none =>
    let device : Device := ⟨db.nextId, fcm_id, true, 0⟩
    let db1 : UserDB Coord :=
      { db with devices := db.devices ++ [device], nextId := db.nextId + 1 }
    let created := db1.create_user device validated_data.email
      validated_data.password
    let newProfiles := created.2.profiles.map
      (fun p => if p.userId = created.1.accId then
        { p with full_name := full_name } else p)
    let db3 : UserDB Coord := { created.2 with profiles := newProfiles }
    (some created.1, db3)

/-- Claim C2: account creation is idempotent per device token.  When the
`fcm_id` already belongs to a Device, that Device is reactivated (active,
failure counter reset, saved, device list unchanged in size) and its
existing owning Account is returned — no account or profile is created and
the submitted email/password/name go nowhere.  When no Device has the
token, a fresh Device is created and a new Account with the submitted
credentials is bound to it, its auto-created Profile receiving the
submitted full name. -/
theorem user_create_idempotent_per_device {Coord : Type} (db : UserDB Coord)
    (data : UserCreateData)
    (hfresh : ∀ p ∈ db.profiles, p.userId < db.nextId) :
    (∀ device acc,
      db.devices.find? (fun d => decide (d.fcm_id = data.fcm_id)) =
        some device →
      db.accounts.find? (fun a => decide (a.deviceId = device.devId)) =
        some acc →
      (User.create db data).1 = some acc ∧
      (User.create db data).2.accounts = db.accounts ∧
      (User.create db data).2.profiles = db.profiles ∧
      { device with is_active := true, fails_count := 0 } ∈
        (User.create db data).2.devices ∧
      (User.create db data).2.devices.length = db.devices.length) ∧
    (db.devices.find? (fun d => decide (d.fcm_id = data.fcm_id)) = none →
      ∃ user prof,
        (User.create db data).1 = some user ∧
        (User.create db data).2.accounts = db.accounts ++ [user] ∧
        user.email = data.email ∧
        user.password = data.password ∧
        (User.create db data).2.devices =
          db.devices ++ [⟨user.deviceId, data.fcm_id, true, 0⟩] ∧
        (User.create db data).2.profiles = db.profiles ++ [prof] ∧
        prof.userId = user.accId ∧
        prof.full_name = data.full_name) := by
  constructor
  · intro device acc hfind hacc
    have hcr : User.create db data =
        (UserDB.owner
          { db with devices := db.devices.map (fun d =>
              if d.devId = device.devId then
                { device with is_active := true, fails_count := 0 } else d) }
          { device with is_active := true, fails_count := 0 },
         { db with devices := db.devices.map (fun d =>
              if d.devId = device.devId then
                { device with is_active := true, fails_count := 0 } else d) }) := by
      simp only [User.create]
      rw [hfind]
    rw [hcr]
    refine ⟨?_, rfl, rfl, ?_, by simp⟩
    · show db.accounts.find? (fun a => decide (a.deviceId = device.devId)) =
        some acc
      exact hacc
    · have hmem : device ∈ db.devices := List.mem_of_find?_eq_some hfind
      have hx := List.mem_map_of_mem
        (fun d : Device => if d.devId = device.devId then
          { device with is_active := true, fails_count := 0 } else d) hmem
      simpa using hx
  · intro hnone
    have hcr : User.create db data =
        (some (⟨db.nextId + 1, data.email, data.password, db.nextId⟩ : Account),
         ⟨db.devices ++ [⟨db.nextId, data.fcm_id, true, 0⟩],
          db.accounts ++
            [(⟨db.nextId + 1, data.email, data.password, db.nextId⟩ : Account)],
          (db.profiles ++
            [(⟨db.nextId + 2, db.nextId + 2, db.nextId + 1, "", "", "",
              none⟩ : ProfileRec Coord)]).map
            (fun p : ProfileRec Coord => if p.userId = db.nextId + 1 then
              { p with full_name := data.full_name } else p),
          db.nextId + 3⟩) := by
      simp only [User.create]
      rw [hnone]
      rfl
    have hmapid : db.profiles.map
        (fun p : ProfileRec Coord => if p.userId = db.nextId + 1 then
          { p with full_name := data.full_name } else p) = db.profiles := by
      conv_rhs => rw [← List.map_id db.profiles]
      apply List.map_congr_left
      intro p hp
      have hlt := hfresh p hp
      rw [if_neg (by omega)]
      rfl
    refine ⟨(⟨db.nextId + 1, data.email, data.password, db.nextId⟩ : Account),
      (⟨db.nextId + 2, db.nextId + 2, db.nextId + 1, data.full_name, "", "",
        none⟩ : ProfileRec Coord), ?_, ?_, rfl, rfl, ?_, ?_, rfl, rfl⟩
    · rw [hcr]
    · rw [hcr]
    · rw [hcr]
    · rw [hcr]
      show (db.profiles ++
          [(⟨db.nextId + 2, db.nextId + 2, db.nextId + 1, "", "", "",
            none⟩ : ProfileRec Coord)]).map
            (fun p : ProfileRec Coord => if p.userId = db.nextId + 1 then
              { p with full_name := data.full_name } else p) =
        db.profiles ++
          [(⟨db.nextId + 2, db.nextId + 2, db.nextId + 1, data.full_name, "",
            "", none⟩ : ProfileRec Coord)]
      rw [List.map_append, hmapid]
      simp

/-- Concrete tables for the C2 witness: one device already bound to one
account, plus its profile. -/
def deviceSample : Device := ⟨0, "feed", false, 3⟩

def accountSample : Account := ⟨1, "a@x.com", "oldpw", 0⟩

def userDbSample : UserDB Int :=
  ⟨[deviceSample], [accountSample], [⟨2, 2, 1, "Old Name", "", "", none⟩], 3⟩

def userDataSample : UserCreateData :=
  ⟨"New Name", "b@x.com", "newpw", "feed"⟩

theorem user_create_idempotent_per_device_witness :
    (User.create userDbSample userDataSample).1 = some accountSample ∧
    (User.create userDbSample userDataSample).2.accounts =
      userDbSample.accounts ∧
    (User.create userDbSample userDataSample).2.profiles =
      userDbSample.profiles ∧
    (⟨0, "feed", true, 0⟩ : Device) ∈
      (User.create userDbSample userDataSample).2.devices := by
  have h := (user_create_idempotent_per_device userDbSample userDataSample
    (by decide)).1 deviceSample accountSample (by decide) (by decide)
  exact ⟨h.1, h.2.1, h.2.2.1, h.2.2.2.1⟩

/-! ## Chat creation (serializer `Chat`)

`Chat.create` resolves the Profile of the target person and the Listing from
their already-decoded uuids with `get_object_or_404` (uuid column values
are modelled as bare naturals; their wire codec is verified above), then
runs `Chat.objects.get_or_create(creator=..., interlocutor=..., listing=...)`
and writes the listing title into `subject` only when the Chat was newly
created. -/

/-- A `models.Chat` row. -/
structure ChatRec where
  chatId : Nat
  creator : Nat
  interlocutor : Nat
  listing : Nat
  subject : String
deriving DecidableEq

/-- The tables `Chat.create` touches. -/
structure ChatDB (Coord : Type) where
  profiles : List (ProfileRec Coord)
  listings : List (ListingRow Coord)
  chats : List ChatRec
  nextChatId : Nat

/-- The `get_or_create` key of a Chat: the (creator, interlocutor, listing)
triple. -/
def tripleKey (creator interlocutor listing : Nat) (ch : ChatRec) : Bool :=
  decide (ch.creator = creator ∧ ch.interlocutor = interlocutor ∧
    ch.listing = listing)

/-- Serializer `Chat.create`: resolve the target Profile and the Listing by
uuid (NotFound when either is absent); find-or-create the Chat keyed by
(creator = request user, interlocutor = user owning the target profile, listing);
when newly created, set `subject` to the listing title and save. -/
def Chat.create {Coord : Type} (db : ChatDB Coord) (request_user : Nat)
    (to_uuid listing_uuid : Nat) : Except ApiError (ChatRec × ChatDB Coord) :=
  let creator := request_user
  match db.profiles.find? (fun p => decide (p.uuid = to_uuid)) with
  | none => Except.error ApiError.NotFound
  | some prof =>
    match db.listings.find? (fun l => decide (l.uuid = listing_uuid)) with
    | none => Except.error ApiError.NotFound
    | some listing =>
      match db.chats.find? (tripleKey creator prof.userId listing.listId) with
      | some chat => Except.ok (chat, db)
      | none =>
        let chat : ChatRec :=
          ⟨db.nextChatId, creator, prof.userId, listing.listId, ""⟩
        let chat2 : ChatRec := { chat with subject := listing.title }
        Except.ok (chat2,
          { db with
            chats := (db.chats ++ [chat]).map
              (fun c => if c.chatId = chat.chatId then chat2 else c),
            nextChatId := db.nextChatId + 1 })

/-- Claim C3: Chat creation is a find-or-create keyed by the
(creator, interlocutor, listing) triple: calling it twice with the same
triple returns the same Chat both times with no duplicate created, and the
subject is set to the listing title only on the call that first creates
the Chat (a pre-existing Chat and the table are returned unchanged). -/
theorem chat_create_find_or_create {Coord : Type} (db : ChatDB Coord)
    (request_user to_uuid listing_uuid : Nat)
    (prof : ProfileRec Coord) (listing : ListingRow Coord)
    (hp : db.profiles.find? (fun p => decide (p.uuid = to_uuid)) = some prof)
    (hl : db.listings.find? (fun l => decide (l.uuid = listing_uuid)) =
      some listing)
    (hb : ∀ c ∈ db.chats, c.chatId < db.nextChatId) :
    ∃ c1 db1,
      Chat.create db request_user to_uuid listing_uuid =
        Except.ok (c1, db1) ∧
      Chat.create db1 request_user to_uuid listing_uuid =
        Except.ok (c1, db1) ∧
      (db.chats.find? (tripleKey request_user prof.userId listing.listId) =
          none →
        db1.chats = db.chats ++ [c1] ∧ c1.subject = listing.title) ∧
      (∀ c, db.chats.find?
          (tripleKey request_user prof.userId listing.listId) = some c →
        c1 = c ∧ db1 = db) := by
  cases hch : db.chats.find?
      (tripleKey request_user prof.userId listing.listId) with
  | some chat =>
    have hcr : Chat.create db request_user to_uuid listing_uuid =
        Except.ok (chat, db) := by
      simp only [Chat.create, hp, hl, hch]
    refine ⟨chat, db, hcr, hcr, ?_, ?_⟩
    · intro h
      exact absurd h (by simp)
    · intro c hc
      injection hc with h
      subst h
      exact ⟨rfl, rfl⟩
  | none =>
    have hmapid2 : db.chats.map
        (fun c => if c.chatId = db.nextChatId then
          (⟨db.nextChatId, request_user, prof.userId, listing.listId,
            listing.title⟩ : ChatRec) else c) = db.chats := by
      conv_rhs => rw [← List.map_id db.chats]
      apply List.map_congr_left
      intro c hc
      have := hb c hc
      rw [if_neg (by omega)]
      rfl
    refine ⟨(⟨db.nextChatId, request_user, prof.userId, listing.listId,
        listing.title⟩ : ChatRec),
      ({ db with
          chats := db.chats ++
            [(⟨db.nextChatId, request_user, prof.userId, listing.listId,
              listing.title⟩ : ChatRec)],
          nextChatId := db.nextChatId + 1 } : ChatDB Coord), ?_, ?_, ?_, ?_⟩
    · simp only [Chat.create, hp, hl, hch]
      rw [List.map_append, hmapid2]
      simp
    · simp only [Chat.create, hp, hl, List.find?_append, hch]
      have hkey : tripleKey request_user prof.userId listing.listId
          (⟨db.nextChatId, request_user, prof.userId, listing.listId,
            listing.title⟩ : ChatRec) = true := by
        simp [tripleKey]
      simp [hkey]
    · intro _
      exact ⟨rfl, rfl⟩
    · intro c hc
      exact absurd hc (by simp)

/-- Concrete tables for the C3 witness. -/
def chatDbSample : ChatDB Int := ⟨[profileSample], [listingSample], [], 0⟩

theorem chat_create_find_or_create_witness :
    ∃ c1 db1,
      Chat.create chatDbSample 99 30 40 = Except.ok (c1, db1) ∧
      Chat.create db1 99 30 40 = Except.ok (c1, db1) ∧
      (chatDbSample.chats.find?
          (tripleKey 99 profileSample.userId listingSample.listId) = none →
        db1.chats = chatDbSample.chats ++ [c1] ∧
        c1.subject = listingSample.title) ∧
      (∀ c, chatDbSample.chats.find?
          (tripleKey 99 profileSample.userId listingSample.listId) = some c →
        c1 = c ∧ db1 = chatDbSample) :=
  chat_create_find_or_create chatDbSample 99 30 40 profileSample listingSample
    (by decide) (by decide) (by decide)
